import Mathlib

/-!
Verification of the audiocloud `apis` wire contracts and of the session
topology & playback state engine they specify.

The repository ships TypeBox schema definitions (TypeScript) for sessions,
routing graphs, playback commands and media lifecycle events.  The message
vocabularies below are shallowly embedded from the source files
(`js-api/src/change.ts`, `session.ts`, `domain.ts`, `media.ts`,
`new_types.ts`, and the unnamed parts holding `CloudError`, the audio engine
events and the session packets).  The executable logic a domain service must
implement on top of these contracts (transaction application, optimistic
concurrency, cycle detection, the playback and media state machines) is not
part of the repository; those definitions are modelled from the spec and are
marked `Modelled from the spec:` in their doc comments.

TypeScript `Record<K, V>` maps are embedded as association lists,
`Type.Number()` as `ℚ`, `Type.Integer()` as `Int`, string newtypes as
`String`.
-/

set_option linter.unusedSectionVars false

namespace AudioCloud

/-! ### Association-list maps (embedding of `Type.Record`) -/

section AList

variable {K : Type} {α : Type} [DecidableEq K]

/-- Lookup in an association-list map (the embedding of a JSON record). -/
def alookup : List (K × α) → K → Option α
  | [], _ => none
  | (k', v) :: m, k => if k = k' then some v else alookup m k

/-- Replace the value stored at key `k` (leaves other entries alone). -/
def aupdate (m : List (K × α)) (k : K) (v : α) : List (K × α) :=
  m.map (fun p => if p.1 = k then (k, v) else p)

/-- Remove all entries stored at key `k`. -/
def aerase (m : List (K × α)) (k : K) : List (K × α) :=
  m.filter (fun p => p.1 ≠ k)

end AList

/-! ### Directed reachability over an edge list

`Modelled from the spec:` §4.1 requires connection-adding operations to
"simulate inserting the edge into the current directed graph and perform a
reachability search from the new edge's sink back to its source".  The graph
search below is the executable reachability check the transaction applier
uses; `Reaches` is the mathematical reachability it is proved to decide. -/

section Reach

variable {V : Type} [DecidableEq V]

/-- Successors of `a` in the edge list. -/
def succs (es : List (V × V)) (a : V) : List V :=
  (es.filter (fun e => e.1 = a)).map (·.2)

/-- `reachN es n a b`: there is a path of at most `n` edges from `a` to `b`. -/
def reachN (es : List (V × V)) : Nat → V → V → Bool
  | 0, a, b => a = b
  | n + 1, a, b => a = b || (succs es a).any (fun c => reachN es n c b)

/-- All vertices mentioned by the edge list. -/
def nodesOf (es : List (V × V)) : List V :=
  es.foldr (fun e acc => e.1 :: e.2 :: acc) []

/-- The reachability search: enough fuel to find any duplicate-free path. -/
def canReach (es : List (V × V)) (a b : V) : Bool :=
  reachN es (nodesOf es).length a b

/-- `a` reaches `b` through the directed edges `es`. -/
inductive Reaches (es : List (V × V)) : V → V → Prop
  | refl (a : V) : Reaches es a a
  | head {a c b : V} : (a, c) ∈ es → Reaches es c b → Reaches es a b

/-- A walk from `a` to `b` whose intermediate (and final) vertices are `l`. -/
def isWalk (es : List (V × V)) : V → List V → V → Prop
  | a, [], b => a = b
  | a, c :: l, b => (a, c) ∈ es ∧ isWalk es c l b

end Reach

/-! ### Identifier types (`js-api/src/new_types.ts`)

All id newtypes are `Type.String` (or string regexes) on the wire. -/

abbrev DomainId := String
abbrev AppId := String
abbrev ModelId := String
abbrev FixedInstanceId := String
abbrev TrackId := String
abbrev MixerId := String
abbrev DynamicId := String
abbrev FixedId := String
abbrev MediaId := String
abbrev InputId := String
abbrev SecureKey := String
abbrev MediaObjectId := String
abbrev ParameterId := String
abbrev ReportId := String
abbrev ConnectionId := String
abbrev AppSessionId := String
abbrev AppMediaObjectId := String

/-- `js-api/src/time.ts`: `JsonTimeStamp` is an ISO date-time string. -/
abbrev JsonTimeStamp := String

/-- `js-api/src/time.ts`: `JsonTimeRange` (`from` and `to` are Lean keywords, kept as
`from'`/`to'`). -/
structure JsonTimeRange where
  from' : JsonTimeStamp
  to' : JsonTimeStamp
deriving DecidableEq

/-- Modelled from the spec: the `Timestamped` wrapper imported from
`./time` is missing from the source `time.ts`; §3 says desired and actual
play state "carry a timestamp of last change". -/
structure Timestamped (α : Type) where
  timestamp : JsonTimeStamp
  value : α
deriving DecidableEq

/-! ### Session data model (`js-api/src/session.ts`) -/

/-- `session.ts`: `SessionTrackChannels`. -/
inductive SessionTrackChannels
  | mono
  | stereo
deriving DecidableEq

/-- `session.ts`: `SessionTimeSegment` (JSON numbers embedded as `ℚ`). -/
structure SessionTimeSegment where
  start : ℚ
  length : ℚ
deriving DecidableEq

/-- `session.ts`: `SessionTrackMedia`. -/
structure SessionTrackMedia where
  channels : SessionTrackChannels
  media_segment : SessionTimeSegment
  timeline_segment : SessionTimeSegment
  object_id : MediaObjectId
deriving DecidableEq

/-- Modelled from the spec: `UpdateSessionTrackMedia` is imported by
`change.ts` but missing from the source `session.ts`; it is the partial
update carried by `update_track_media`, mirroring the optional fields of
the `set_track_media_values` operation in the source's second `change.ts`
variant. -/
structure UpdateSessionTrackMedia where
  channels : Option SessionTrackChannels
  media_segment : Option SessionTimeSegment
  timeline_segment : Option SessionTimeSegment
  object_id : Option MediaObjectId
deriving DecidableEq

/-- `session.ts`: `SessionTrack`. -/
structure SessionTrack where
  channels : SessionTrackChannels
  media : List (MediaId × SessionTrackMedia)
deriving DecidableEq

/-- `session.ts`: `SessionObjectId`, the tagged union of node references. -/
inductive SessionObjectId
  | mixer (id : MixerId)
  | fixed_instance (id : FixedId)
  | dynamic_instance (id : DynamicId)
  | track (id : TrackId)
deriving DecidableEq

/-- Modelled from the spec: `SessionFlowId` is imported by `change.ts` but
missing from the source `session.ts`; §3 describes the connection endpoint
as "a `NodeRef` … a tagged union over {mixer, fixed_instance,
dynamic_instance, track}", which is exactly the source's `SessionObjectId`. -/
abbrev SessionFlowId := SessionObjectId

/-- `session.ts`: `MixerChannels` (a mono or stereo channel selector). -/
inductive MixerChannels
  | mono (channel : Int)
  | stereo (channel : Int)
deriving DecidableEq

/-- `session.ts`: `MixerInput`; `volume` and `pan` are JSON numbers with
schema default `0`, and `pan` has schema bounds `minimum: -1, maximum: 1`. -/
structure MixerInput where
  source_id : SessionObjectId
  input_channels : MixerChannels
  mixer_channels : MixerChannels
  volume : ℚ
  pan : ℚ
deriving DecidableEq

/-- `session.ts`: `MixerInputValues` (partial update of volume/pan). -/
structure MixerInputValues where
  volume : Option ℚ
  pan : Option ℚ
deriving DecidableEq

/-- `session.ts`: `SessionMixer`. -/
structure SessionMixer where
  channels : Int
  inputs : List (InputId × MixerInput)
deriving DecidableEq

/-- `model.ts`: `InstanceValue` (number | string | boolean). -/
inductive InstanceValue
  | number (n : ℚ)
  | string (s : String)
  | bool (b : Bool)
deriving DecidableEq

/-- `model.ts`: `MultiChannelValue` (channel index paired with a value). -/
abbrev MultiChannelValue := List (Int × InstanceValue)

/-- `session.ts`: `InstanceParameters`. -/
abbrev InstanceParameters := List (ParameterId × MultiChannelValue)

/-- `instance.ts`: `MultiChannelTimestampedValue`. -/
abbrev MultiChannelTimestampedValue := List (Int × Timestamped InstanceValue)

/-- `session.ts`: `SessionDynamicInstance`. -/
structure SessionDynamicInstance where
  model_id : ModelId
  parameters : InstanceParameters
  inputs : List (InputId × MixerInput)
deriving DecidableEq

/-- `session.ts`: `SessionFixedInstance`. -/
structure SessionFixedInstance where
  instance_id : FixedInstanceId
  parameters : InstanceParameters
  inputs : List (InputId × MixerInput)
deriving DecidableEq

/-- `session.ts`: `SessionSecurity` capability flags. -/
structure SessionSecurity where
  structure' : Bool
  media : Bool
  parameters : Bool
  transport : Bool
  audio : Bool
deriving DecidableEq

/-- `session.ts`: `SessionMixerId`, the tagged union of input owners. -/
inductive SessionMixerId
  | mixer (id : MixerId)
  | fixed_instance (id : FixedId)
  | dynamic_instance (id : DynamicId)
deriving DecidableEq

/-! ### Playback types (`js-api/src/change.ts`) -/

/-- `change.ts`: `SampleRate` string literals ("192" … "44.1"). -/
inductive SampleRate
  | sr192
  | sr96
  | sr88_2
  | sr48
  | sr44_1
deriving DecidableEq

/-- `change.ts`: `PlayBitDepth` string literals ("24" | "16"). -/
inductive PlayBitDepth
  | b24
  | b16
deriving DecidableEq

/-- `change.ts`: `PlayId` (`Type.Integer`). -/
abbrev PlayId := Int

/-- `change.ts`: `RenderId` (`Type.Integer`). -/
abbrev RenderId := Int

/-- `change.ts`: `PlaySession`. -/
structure PlaySession where
  play_id : PlayId
  mixer_id : MixerId
  segment : SessionTimeSegment
  start_at : ℚ
  looping : Bool
  sample_rate : SampleRate
  bit_depth : PlayBitDepth
deriving DecidableEq

/-- `change.ts`: `RenderSession`. -/
structure RenderSession where
  render_id : RenderId
  mixer_id : MixerId
  segment : SessionTimeSegment
  object_id : MediaObjectId
  put_url : String
  notify_url : String
  context : String
deriving DecidableEq

/-- `session.ts`: `SessionMode`, the playback state machine's state. -/
inductive SessionMode
  | stopping_render (id : RenderId)
  | stopping_play (id : PlayId)
  | preparing_to_play (id : PlayId)
  | preparing_to_render (id : RenderId)
  | rendering (id : RenderId)
  | playing (id : PlayId)
  | idle
deriving DecidableEq

/-- `change.ts`: `DesiredSessionPlayState` — the client-visible target. -/
inductive DesiredSessionPlayState
  | play (p : PlaySession)
  | render (r : RenderSession)
  | stopped
deriving DecidableEq

/-! ### Modification vocabulary (`js-api/src/change.ts`)

The source holds two variants of `ModifySessionSpec`; per the spec's design
note (§9) the `Connection`-entity variant is authoritative.  The
`add_mixer_input` operation (and the `input_exists`/`input_does_not_exist`
errors) of the inline-inputs variant are also kept, since mixers and
instances own `inputs` maps in the source `session.ts`. -/

/-- Modelled from the spec: `ConnectionValues` is imported by `change.ts`
but missing from the source `session.ts`; it is the partial volume/pan
update carried by `set_connection_parameter_values`, mirroring the source's
`MixerInputValues` (whose `pan` has schema bounds `[-1, 1]`). -/
structure ConnectionValues where
  volume : Option ℚ
  pan : Option ℚ
deriving DecidableEq

/-- `change.ts`: `ModifySessionSpec`, the structural operation vocabulary.
For `add_connection`, `volume` and `pan` are optional on the wire with
schema default `0`; `pan` carries schema bounds `minimum: -1, maximum: 1`. -/
inductive ModifySessionSpec
  | add_track (track_id : TrackId) (channels : SessionTrackChannels)
  | add_track_media (track_id : TrackId) (media_id : MediaId) (spec : SessionTrackMedia)
  | update_track_media (track_id : TrackId) (media_id : MediaId) (update : UpdateSessionTrackMedia)
  | delete_track_media (track_id : TrackId) (media_id : MediaId)
  | delete_track (track_id : TrackId)
  | add_fixed_instance (fixed_id : FixedId) (process : SessionFixedInstance)
  | add_dynamic_instance (dynamic_id : DynamicId) (process : SessionDynamicInstance)
  | add_mixer (mixer_id : MixerId) (mixer : SessionMixer)
  | delete_mixer (mixer_id : MixerId)
  | delete_fixed_instance (fixed_id : FixedId)
  | delete_dynamic_instance (dynamic_id : DynamicId)
  | delete_connection (connection_id : ConnectionId)
  | add_connection (connection_id : ConnectionId) (from' to' : SessionFlowId)
      (from_channels to_channels : MixerChannels) (volume pan : Option ℚ)
  | set_connection_parameter_values (connection_id : ConnectionId) (values : ConnectionValues)
  | set_fixed_instance_parameter_values (fixed_id : FixedId) (values : InstanceParameters)
  | set_dynamic_instance_parameter_values (dynamic_id : DynamicId) (values : InstanceParameters)
  | add_mixer_input (mixer_id : SessionMixerId) (input_id : InputId) (input : MixerInput)
deriving DecidableEq

/-- `change.ts`: `ModifySessionError`, the structural error vocabulary
(union of both source variants: the `connection_*` errors of the
`Connection`-entity variant and the `input_*` errors of the inline-inputs
variant). -/
inductive ModifySessionError
  | track_exists (id : TrackId)
  | fixed_instance_exists (id : FixedId)
  | dynamic_instance_exists (id : DynamicId)
  | mixer_exists (id : MixerId)
  | track_does_not_exist (id : TrackId)
  | fixed_instance_does_not_exist (id : FixedId)
  | dynamic_instance_does_not_exist (id : DynamicId)
  | mixer_does_not_exist (id : MixerId)
  | connection_does_not_exist (id : ConnectionId)
  | connection_exists (id : ConnectionId)
  | connection_malformed (id : ConnectionId) (reason : String)
  | input_exists (mixer : SessionMixerId) (input : InputId)
  | input_does_not_exist (mixer : SessionMixerId) (input : InputId)
  | media_exists (track : TrackId) (media : MediaId)
  | media_does_not_exist (track : TrackId) (media : MediaId)
  | cycle_detected
deriving DecidableEq

/-! ### Media job states (`js-api/src/media.ts`) -/

/-- `media.ts`: `MediaDownloadState`. -/
inductive MediaDownloadState
  | pending
  | downloading (progress : ℚ) (retry : Int)
  | completed
  | failed (error : String) (count : Int) (will_retry : Bool)
  | evicted
deriving DecidableEq

/-- `media.ts`: `MediaUploadState` — the same vocabulary minus `evicted`. -/
inductive MediaUploadState
  | pending
  | uploading (progress : ℚ) (retry : Int)
  | completed
  | failed (error : String) (count : Int) (will_retry : Bool)
deriving DecidableEq

/-! ### Audio engine events and session packets -/

/-- Audio engine source (unnamed part): `CompressedAudio` (without the
out-of-band `buffer` intersection, which is not part of the JSON shape). -/
structure CompressedAudio where
  play_id : PlayId
  timeline_pos : ℚ
  stream_pos : Int
  last : Bool
deriving DecidableEq

/-- Audio engine source (unnamed part): `AudioEngineEvent`, the engine's
reply vocabulary (`loaded`, `stopped`, `playing`, `playing_failed`,
`rendering`, `rendering_finished`, `rendering_failed`, `error`). -/
inductive AudioEngineEvent
  | loaded
  | stopped (session_id : AppSessionId)
  | playing (session_id : AppSessionId) (play_id : PlayId) (audio : CompressedAudio)
      (peak_meters : List (SessionFlowId × MultiChannelValue))
      (dynamic_reports : List (DynamicId × List (ReportId × MultiChannelTimestampedValue)))
  | playing_failed (session_id : AppSessionId) (play_id : PlayId) (error : String)
  | rendering (session_id : AppSessionId) (rendering : RenderId) (completion : ℚ)
  | rendering_finished (session_id : AppSessionId) (render_id : RenderId) (path : String)
  | rendering_failed (session_id : AppSessionId) (render_id : RenderId) (reason : String)
  | error (session_id : AppSessionId) (error : String)

/-- Session packet source (unnamed part): `SessionPacketError`, the
playback failure surfaced to subscribers. -/
inductive SessionPacketError
  | playing (id : PlayId) (error : String)
  | rendering (id : RenderId) (error : String)
  | general (error : String)
deriving DecidableEq

/-! ### Domain commands (`js-api/src/domain.ts`, `js-api/src/cloud/apps.ts`) -/

/-- `cloud/apps.ts`: `SessionSpec` (all four node maps optional). -/
structure SessionSpec where
  tracks : Option (List (TrackId × SessionTrack))
  mixers : Option (List (MixerId × SessionMixer))
  dynamic : Option (List (DynamicId × SessionDynamicInstance))
  fixed : Option (List (FixedId × SessionFixedInstance))
deriving DecidableEq

/-- `cloud/apps.ts`: `CreateSession`. -/
structure CreateSession where
  domain : DomainId
  time : JsonTimeRange
  tracks : Option (List (TrackId × SessionTrack))
  mixers : Option (List (MixerId × SessionMixer))
  dynamic : Option (List (DynamicId × SessionDynamicInstance))
  fixed : Option (List (FixedId × SessionFixedInstance))
  security : Option (List (SecureKey × SessionSecurity))
  dry_run : Bool
deriving DecidableEq

/-- `domain.ts`: `DomainSessionCommand`, the transport-facing command
vocabulary (every mutating variant but `create` carries an expected
`version`). -/
inductive DomainSessionCommand
  | create (app_session_id : AppSessionId) (create : CreateSession)
  | set_spec (app_session_id : AppSessionId) (version : Int) (spec : SessionSpec)
  | set_security (app_session_id : AppSessionId) (version : Int)
      (security : List (SecureKey × SessionSecurity))
  | modify (app_session_id : AppSessionId) (version : Int)
      (modifications : List ModifySessionSpec)
  | set_desired_play_state (app_session_id : AppSessionId) (version : Int)
      (desired_play_state : DesiredSessionPlayState)
  | delete (app_session_id : AppSessionId)
deriving DecidableEq

/-! ### The topology graph and the transaction applier -/

/-- Modelled from the spec: §3's `Connection` entity
`{from, to, from_channels, to_channels, volume, pan}` — the stored shape of
a successful `add_connection`, with the wire schema's defaults applied. -/
structure Connection where
  from' : SessionFlowId
  to' : SessionFlowId
  from_channels : MixerChannels
  to_channels : MixerChannels
  volume : ℚ
  pan : ℚ
deriving DecidableEq

/-- Modelled from the spec: §3's `TopologyGraph` — the four node maps of the
source `JsonSession` plus the `connections` map of the spec's chosen
`Connection`-entity model (§9). -/
structure TopologyGraph where
  tracks : List (TrackId × SessionTrack)
  mixers : List (MixerId × SessionMixer)
  dynamic : List (DynamicId × SessionDynamicInstance)
  fixed : List (FixedId × SessionFixedInstance)
  connections : List (ConnectionId × Connection)
deriving DecidableEq

/-- The directed edge list (source → sink) formed by the connections. -/
def edgesOf (g : TopologyGraph) : List (SessionFlowId × SessionFlowId) :=
  g.connections.map (fun p => (p.2.from', p.2.to'))

/-- The schema bound on `pan`: `Type.Number({minimum: -1, maximum: 1})`. -/
def panInRange (p : ℚ) : Bool := -1 ≤ p && p ≤ 1

/-- An optional wire `pan` is valid when absent (schema default `0`) or
within the schema bounds. -/
def panOk : Option ℚ → Bool
  | none => true
  | some p => panInRange p

/-- A `MixerInput` payload is schema-valid when its pan is within bounds. -/
def mixerInputValid (i : MixerInput) : Bool := panInRange i.pan

/-- Modelled from the spec: the failure modes of applying one operation —
either the transport's schema validation rejects the payload (the
`Type.Number` bounds, e.g. pan's `minimum`/`maximum`), or the operation
returns a `ModifySessionError` from the source vocabulary. -/
inductive ApplyError
  | invalid_payload (reason : String)
  | rejected (e : ModifySessionError)
deriving DecidableEq

/-- Does the referenced node exist in the graph (referential integrity)? -/
def flowExists (g : TopologyGraph) : SessionFlowId → Bool
  | .mixer id => (alookup g.mixers id).isSome
  | .fixed_instance id => (alookup g.fixed id).isSome
  | .dynamic_instance id => (alookup g.dynamic id).isSome
  | .track id => (alookup g.tracks id).isSome

/-- The `*_does_not_exist` error for a missing connection endpoint. -/
def missingFlowError : SessionFlowId → ModifySessionError
  | .mixer id => .mixer_does_not_exist id
  | .fixed_instance id => .fixed_instance_does_not_exist id
  | .dynamic_instance id => .dynamic_instance_does_not_exist id
  | .track id => .track_does_not_exist id

/-- A track's declared channel count (`mono` = 1, `stereo` = 2). -/
def trackChannelCount : SessionTrackChannels → Int
  | .mono => 1
  | .stereo => 2

/-- The declared channel count of a node, when the graph knows it (mixers
and tracks declare counts; instance counts live in the external model
registry and are not validated here). -/
def nodeChannelCount (g : TopologyGraph) : SessionFlowId → Option Int
  | .mixer id => (alookup g.mixers id).map (·.channels)
  | .track id => (alookup g.tracks id).map (fun t => trackChannelCount t.channels)
  | .fixed_instance _ => none
  | .dynamic_instance _ => none

/-- Does a mono/stereo channel selector fit within `n` declared channels? -/
def channelsFit : MixerChannels → Int → Bool
  | .mono c, n => 0 ≤ c && c + 1 ≤ n
  | .stereo c, n => 0 ≤ c && c + 2 ≤ n

/-- Modelled from the spec: §4.1's channel-count compatibility check — a
connection's channel selector must fit the endpoint's declared channel
count wherever the graph declares one. -/
def flowChannelsOk (g : TopologyGraph) (f : SessionFlowId) (ch : MixerChannels) : Bool :=
  match nodeChannelCount g f with
  | some n => channelsFit ch n
  | none => true

/-- Does this connection reference the given node at either end? -/
def referencesObj (obj : SessionObjectId) (c : Connection) : Bool :=
  c.from' = obj || c.to' = obj

/-- Modelled from the spec: deleting a node cascades (§4.1 and §9 leave the
cascade-vs-explicit policy open; this development picks cascade, applying
`delete_connections_referencing`/`delete_inputs_referencing` implicitly):
connections and mixer-inputs referencing the deleted node are removed. -/
def cascadeDelete (g : TopologyGraph) (obj : SessionObjectId) : TopologyGraph :=
  { g with
    connections := g.connections.filter (fun p => !referencesObj obj p.2),
    mixers := g.mixers.map
      (fun p => (p.1, { p.2 with inputs := p.2.inputs.filter (fun q => q.2.source_id ≠ obj) })),
    fixed := g.fixed.map
      (fun p => (p.1, { p.2 with inputs := p.2.inputs.filter (fun q => q.2.source_id ≠ obj) })),
    dynamic := g.dynamic.map
      (fun p => (p.1, { p.2 with inputs := p.2.inputs.filter (fun q => q.2.source_id ≠ obj) })) }

/-- Merge a partial `update_track_media` into a stored `SessionTrackMedia`. -/
def applyMediaUpdate (m : SessionTrackMedia) (u : UpdateSessionTrackMedia) : SessionTrackMedia :=
  { channels := u.channels.getD m.channels
    media_segment := u.media_segment.getD m.media_segment
    timeline_segment := u.timeline_segment.getD m.timeline_segment
    object_id := u.object_id.getD m.object_id }

/-- Upsert parameter values into an instance's parameter map. -/
def mergeParams (ps : InstanceParameters) (values : InstanceParameters) : InstanceParameters :=
  values.foldl
    (fun acc kv =>
      if (alookup acc kv.1).isSome then aupdate acc kv.1 kv.2 else kv :: acc) ps

/-- Modelled from the spec: §4.1's per-operation application against a
topology graph.  Each operation checks its existence preconditions; the
connection-adding operation resolves both endpoints, validates
channel-count compatibility, and then runs the cycle check (reachability
from the new edge's sink back to its source); payload schema bounds (pan)
are validated before any structural check, as the transport's schema
validation runs first.  Deleting a node cascades to the connections and
inputs referencing it. -/
def applyOp (g : TopologyGraph) : ModifySessionSpec → Except ApplyError TopologyGraph
  | .add_track tid ch =>
    if (alookup g.tracks tid).isSome then .error (.rejected (.track_exists tid))
    else .ok { g with tracks := (tid, ⟨ch, []⟩) :: g.tracks }
  | .add_track_media tid mid spec =>
    match alookup g.tracks tid with
    | none => .error (.rejected (.track_does_not_exist tid))
    | some tr =>
      if (alookup tr.media mid).isSome then .error (.rejected (.media_exists tid mid))
      else .ok { g with tracks := aupdate g.tracks tid { tr with media := (mid, spec) :: tr.media } }
  | .update_track_media tid mid upd =>
    match alookup g.tracks tid with
    | none => .error (.rejected (.track_does_not_exist tid))
    | some tr =>
      match alookup tr.media mid with
      | none => .error (.rejected (.media_does_not_exist tid mid))
      | some m =>
        .ok { g with
          tracks := aupdate g.tracks tid
            { tr with media := aupdate tr.media mid (applyMediaUpdate m upd) } }
  | .delete_track_media tid mid =>
    match alookup g.tracks tid with
    | none => .error (.rejected (.track_does_not_exist tid))
    | some tr =>
      if (alookup tr.media mid).isSome then
        .ok { g with tracks := aupdate g.tracks tid { tr with media := aerase tr.media mid } }
      else .error (.rejected (.media_does_not_exist tid mid))
  | .delete_track tid =>
    if (alookup g.tracks tid).isSome then
      .ok (cascadeDelete { g with tracks := aerase g.tracks tid } (.track tid))
    else .error (.rejected (.track_does_not_exist tid))
  | .add_fixed_instance fid process =>
    if (alookup g.fixed fid).isSome then .error (.rejected (.fixed_instance_exists fid))
    else if process.inputs.all (fun q => mixerInputValid q.2) then
      .ok { g with fixed := (fid, process) :: g.fixed }
    else .error (.invalid_payload "pan out of range")
  | .add_dynamic_instance did process =>
    if (alookup g.dynamic did).isSome then .error (.rejected (.dynamic_instance_exists did))
    else if process.inputs.all (fun q => mixerInputValid q.2) then
      .ok { g with dynamic := (did, process) :: g.dynamic }
    else .error (.invalid_payload "pan out of range")
  | .add_mixer mid mixer =>
    if (alookup g.mixers mid).isSome then .error (.rejected (.mixer_exists mid))
    else if mixer.inputs.all (fun q => mixerInputValid q.2) then
      .ok { g with mixers := (mid, mixer) :: g.mixers }
    else .error (.invalid_payload "pan out of range")
  | .delete_mixer mid =>
    if (alookup g.mixers mid).isSome then
      .ok (cascadeDelete { g with mixers := aerase g.mixers mid } (.mixer mid))
    else .error (.rejected (.mixer_does_not_exist mid))
  | .delete_fixed_instance fid =>
    if (alookup g.fixed fid).isSome then
      .ok (cascadeDelete { g with fixed := aerase g.fixed fid } (.fixed_instance fid))
    else .error (.rejected (.fixed_instance_does_not_exist fid))
  | .delete_dynamic_instance did =>
    if (alookup g.dynamic did).isSome then
      .ok (cascadeDelete { g with dynamic := aerase g.dynamic did } (.dynamic_instance did))
    else .error (.rejected (.dynamic_instance_does_not_exist did))
  | .delete_connection cid =>
    if (alookup g.connections cid).isSome then
      .ok { g with connections := aerase g.connections cid }
    else .error (.rejected (.connection_does_not_exist cid))
  | .add_connection cid f t fc tc vol pan =>
    if ¬ panOk pan then .error (.invalid_payload "pan out of range")
    else if (alookup g.connections cid).isSome then .error (.rejected (.connection_exists cid))
    else if ¬ flowExists g f then .error (.rejected (missingFlowError f))
    else if ¬ flowExists g t then .error (.rejected (missingFlowError t))
    else if ¬ (flowChannelsOk g f fc && flowChannelsOk g t tc) then
      .error (.rejected (.connection_malformed cid "incompatible channel counts"))
    else if canReach (edgesOf g) t f then .error (.rejected .cycle_detected)
    else .ok { g with connections := (cid, ⟨f, t, fc, tc, vol.getD 0, pan.getD 0⟩) :: g.connections }
  | .set_connection_parameter_values cid values =>
    if ¬ panOk values.pan then .error (.invalid_payload "pan out of range")
    else
      match alookup g.connections cid with
      | none => .error (.rejected (.connection_does_not_exist cid))
      | some c =>
        .ok { g with
          connections := aupdate g.connections cid
            { c with volume := values.volume.getD c.volume, pan := values.pan.getD c.pan } }
  | .set_fixed_instance_parameter_values fid values =>
    match alookup g.fixed fid with
    | none => .error (.rejected (.fixed_instance_does_not_exist fid))
    | some inst =>
      .ok { g with fixed := aupdate g.fixed fid { inst with parameters := mergeParams inst.parameters values } }
  | .set_dynamic_instance_parameter_values did values =>
    match alookup g.dynamic did with
    | none => .error (.rejected (.dynamic_instance_does_not_exist did))
    | some inst =>
      .ok { g with dynamic := aupdate g.dynamic did { inst with parameters := mergeParams inst.parameters values } }
  | .add_mixer_input smid iid input =>
    if ¬ mixerInputValid input then .error (.invalid_payload "pan out of range")
    else
      match smid with
      | .mixer id =>
        match alookup g.mixers id with
        | none => .error (.rejected (.mixer_does_not_exist id))
        | some mx =>
          if (alookup mx.inputs iid).isSome then .error (.rejected (.input_exists smid iid))
          else .ok { g with mixers := aupdate g.mixers id { mx with inputs := (iid, input) :: mx.inputs } }
      | .fixed_instance id =>
        match alookup g.fixed id with
        | none => .error (.rejected (.fixed_instance_does_not_exist id))
        | some inst =>
          if (alookup inst.inputs iid).isSome then .error (.rejected (.input_exists smid iid))
          else .ok { g with fixed := aupdate g.fixed id { inst with inputs := (iid, input) :: inst.inputs } }
      | .dynamic_instance id =>
        match alookup g.dynamic id with
        | none => .error (.rejected (.dynamic_instance_does_not_exist id))
        | some inst =>
          if (alookup inst.inputs iid).isSome then .error (.rejected (.input_exists smid iid))
          else .ok { g with dynamic := aupdate g.dynamic id { inst with inputs := (iid, input) :: inst.inputs } }

/-- Modelled from the spec: §4.2's transaction applier — the ordered batch
is applied strictly in order against a working copy; the first failing
operation aborts the whole batch. -/
def applyBatch (g : TopologyGraph) : List ModifySessionSpec → Except ApplyError TopologyGraph
  | [] => .ok g
  | op :: ops =>
    match applyOp g op with
    | .ok g' => applyBatch g' ops
    | .error e => .error e

/-- `session.ts`: `JsonSession`, restructured per §3/§6: the four node maps
(plus the spec's connections map) form the owned `TopologyGraph`;
`version`, `security`, `time`, the owning ids and the `deleted` tombstone
stay at the top level, as in the at-rest document. -/
structure VersionedSession where
  version : Int
  domain_id : DomainId
  app_id : AppId
  time : JsonTimeRange
  graph : TopologyGraph
  security : List (SecureKey × SessionSecurity)
  deleted : Bool
deriving DecidableEq

/-- Modelled from the spec: the rejection side of §4.3's
`propose(expected_version, ops) -> Result<new_version> | Conflict |
ModifySessionError`. -/
inductive ProposeError
  | conflict
  | failed (e : ApplyError)
deriving DecidableEq

/-- Modelled from the spec: §4.3's optimistic-concurrency `propose` —
reject with `Conflict` when `expected_version != current_version`,
otherwise run the batch through the transaction applier; on success commit
the new graph and bump the version by exactly one (§4.2). -/
def propose (s : VersionedSession) (expected_version : Int)
    (ops : List ModifySessionSpec) : Except ProposeError VersionedSession :=
  if expected_version ≠ s.version then .error .conflict
  else
    match applyBatch s.graph ops with
    | .ok g' => .ok { s with graph := g', version := s.version + 1 }
    | .error e => .error (.failed e)

/-- Modelled from the spec: the session state the domain holds after
handling a modification command — the committed session on success, the
untouched previous session on any rejection (§4.2: "the caller never
observes an intermediate graph"). -/
def proposeState (s : VersionedSession) (expected_version : Int)
    (ops : List ModifySessionSpec) : VersionedSession :=
  match propose s expected_version ops with
  | .ok s' => s'
  | .error _ => s

/-! ### The playback state machine (§4.4) -/

/-- Modelled from the spec: the play/render/stop requests the reconciler
issues to the audio engine collaborator (§4.4, §6); payloads are the
source's `PlaySession`/`RenderSession`. -/
inductive EngineRequest
  | play (p : PlaySession)
  | render (r : RenderSession)
  | stop
deriving DecidableEq

/-- Modelled from the spec: §4.4's reaction to a new client
`DesiredSessionPlayState` — re-target the matching transitional state (a
desire already satisfied or in progress changes nothing); a `stopped`
desire moves active/preparing modes into the matching stopping state.
Returns the new mode and the requests issued to the engine. -/
def desiredStep (m : SessionMode) : DesiredSessionPlayState → SessionMode × List EngineRequest
  | .play p =>
    if m = .playing p.play_id ∨ m = .preparing_to_play p.play_id then (m, [])
    else (.preparing_to_play p.play_id, [.play p])
  | .render r =>
    if m = .rendering r.render_id ∨ m = .preparing_to_render r.render_id then (m, [])
    else (.preparing_to_render r.render_id, [.render r])
  | .stopped =>
    match m with
    | .playing id => (.stopping_play id, [.stop])
    | .preparing_to_play id => (.stopping_play id, [.stop])
    | .rendering id => (.stopping_render id, [.stop])
    | .preparing_to_render id => (.stopping_render id, [.stop])
    | m => (m, [])

/-- Modelled from the spec: §4.4's consumption of engine events — a
matching ack advances the transitional state, a stale ack whose id no
longer matches the current target is ignored (§5), and any engine-reported
failure forces the mode back to `idle` and surfaces exactly one
`SessionPacketError` to subscribers.  Returns the new mode and the errors
surfaced. -/
def engineStep (m : SessionMode) : AudioEngineEvent → SessionMode × List SessionPacketError
  | .loaded => (m, [])
  | .stopped _ =>
    match m with
    | .stopping_play _ => (.idle, [])
    | .stopping_render _ => (.idle, [])
    | m => (m, [])
  | .playing _ pid _ _ _ =>
    if m = .preparing_to_play pid then (.playing pid, []) else (m, [])
  | .playing_failed _ pid err => (.idle, [.playing pid err])
  | .rendering _ rid _ =>
    if m = .preparing_to_render rid then (.rendering rid, []) else (m, [])
  | .rendering_finished _ rid _ =>
    if m = .rendering rid then (.idle, []) else (m, [])
  | .rendering_failed _ rid reason => (.idle, [.rendering rid reason])
  | .error _ err => (.idle, [.general err])

/-- Modelled from the spec: the two inputs driving the playback state
machine (§4.4) — client desired-state changes and engine events. -/
inductive CoreInput
  | desired (d : DesiredSessionPlayState)
  | engine (e : AudioEngineEvent)

/-- One reconciliation step: a desired-state change may issue engine
requests; an engine event may surface packet errors, but never issues an
engine request by itself (§4.4: no automatic retry). -/
def coreStep (m : SessionMode) :
    CoreInput → SessionMode × List EngineRequest × List SessionPacketError
  | .desired d => ((desiredStep m d).1, (desiredStep m d).2, [])
  | .engine e => ((engineStep m e).1, [], (engineStep m e).2)

/-- Run the machine over a sequence of inputs, collecting every engine
request issued and every error surfaced along the way. -/
def coreRun (m : SessionMode) :
    List CoreInput → SessionMode × List EngineRequest × List SessionPacketError
  | [] => (m, [], [])
  | i :: is =>
    match coreStep m i with
    | (m', reqs, errs) =>
      match coreRun m' is with
      | (m'', reqs', errs') => (m'', reqs ++ reqs', errs ++ errs')

/-- The four transitional modes of `SessionMode`. -/
def isTransitional : SessionMode → Bool
  | .preparing_to_play _ => true
  | .preparing_to_render _ => true
  | .stopping_play _ => true
  | .stopping_render _ => true
  | _ => false

/-- The (never transitional) mode a desired play state names as its goal. -/
def desiredTarget : DesiredSessionPlayState → SessionMode
  | .play p => .playing p.play_id
  | .render r => .rendering r.render_id
  | .stopped => .idle

/-- The desired play state carried by a domain command, if any — the only
channel through which the public command interface mentions play state. -/
def commandDesired : DomainSessionCommand → Option DesiredSessionPlayState
  | .set_desired_play_state _ _ d => some d
  | _ => none

/-! ### The media job tracker (§4.5) -/

/-- Modelled from the spec: the notifications driving §4.5's per-object
media job state machines — transfer callbacks (`start`, `progress`,
`complete`, `fail`), the tracker's scheduled retry `attempt`, and the
domain's `evict` check carrying whether the object has been unreferenced
past the retention window. -/
inductive MediaJobEvent
  | start
  | progress (progress : ℚ)
  | complete
  | fail (error : String) (will_retry : Bool)
  | attempt
  | evict (unreferenced_past_retention : Bool)
deriving DecidableEq

/-- Modelled from the spec: §4.5's download state machine —
`pending → downloading(progress, retry) → completed | failed(error, count,
will_retry)`; a retryable failure transitions back in-progress with `retry`
incremented on the next attempt, a non-retryable failure is terminal;
`pending`/`downloading` jobs unreferenced past the retention window are
evicted, and `evicted` is terminal.  Notifications that do not apply to the
current state are ignored. -/
def mediaDownloadNotify (s : MediaDownloadState) : MediaJobEvent → MediaDownloadState :=
  fun ev =>
    match s, ev with
    | .pending, .start => .downloading 0 0
    | .downloading _ r, .progress p => .downloading p r
    | .downloading _ _, .complete => .completed
    | .downloading _ r, .fail e w => .failed e r w
    | .failed _e n true, .attempt => .downloading 0 (n + 1)
    | .pending, .evict true => .evicted
    | .downloading _ _, .evict true => .evicted
    | s, _ => s

/-- Modelled from the spec: §4.5's upload state machine — the same minus
eviction (`MediaUploadState` has no `evicted` variant). -/
def mediaUploadNotify (s : MediaUploadState) : MediaJobEvent → MediaUploadState :=
  fun ev =>
    match s, ev with
    | .pending, .start => .uploading 0 0
    | .uploading _ r, .progress p => .uploading p r
    | .uploading _ _, .complete => .completed
    | .uploading _ r, .fail e w => .failed e r w
    | .failed _e n true, .attempt => .uploading 0 (n + 1)
    | s, _ => s

/-- Fold a stream of notifications through the download state machine. -/
def mediaDownloadRun (s : MediaDownloadState) : List MediaJobEvent → MediaDownloadState
  | [] => s
  | ev :: evs => mediaDownloadRun (mediaDownloadNotify s ev) evs


/-- Decidable equality for `Except`, needed to evaluate the applier's
results on concrete inputs. -/
instance {ε α : Type} [DecidableEq ε] [DecidableEq α] : DecidableEq (Except ε α) :=
  fun a b =>
    match a, b with
    | .ok x, .ok y =>
      if h : x = y then .isTrue (by rw [h]) else .isFalse (by simp [h])
    | .error x, .error y =>
      if h : x = y then .isTrue (by rw [h]) else .isFalse (by simp [h])
    | .ok _, .error _ => .isFalse (by simp)
    | .error _, .ok _ => .isFalse (by simp)

/-! ### The pan-bounds invariant (C9) -/

/-- Are all of a node's inputs schema-valid (pan within bounds)? -/
def inputsOk (inputs : List (InputId × MixerInput)) : Bool :=
  inputs.all (fun q => mixerInputValid q.2)

/-- The implicit pan invariant: every connection and every mixer/instance
input in the graph carries a pan within the schema bounds `[-1, 1]`. -/
def panInvariant (g : TopologyGraph) : Bool :=
  g.connections.all (fun p => panInRange p.2.pan) &&
  (g.mixers.all (fun p => inputsOk p.2.inputs) &&
   (g.fixed.all (fun p => inputsOk p.2.inputs) &&
    g.dynamic.all (fun p => inputsOk p.2.inputs)))

/-! ### Concrete data used by the claim witnesses and counterexamples -/

/-- A fresh, empty topology graph. -/
def emptyGraph : TopologyGraph := ⟨[], [], [], [], []⟩

/-- A fresh session at version 0 over the empty graph. -/
def session0 : VersionedSession :=
  ⟨0, "domain01", "app00001",
    ⟨"2022-01-01T00:00:00Z", "2022-01-01T01:00:00Z"⟩, emptyGraph, [], false⟩

/-- Four mono tracks A–D with A→B→C already connected (§8's cycle-rejection
scenario). -/
def c3Graph : TopologyGraph :=
  { tracks := [("A", ⟨.mono, []⟩), ("B", ⟨.mono, []⟩), ("C", ⟨.mono, []⟩), ("D", ⟨.mono, []⟩)]
    mixers := []
    dynamic := []
    fixed := []
    connections :=
      [("c1", ⟨.track "A", .track "B", .mono 0, .mono 0, 0, 0⟩),
       ("c2", ⟨.track "B", .track "C", .mono 0, .mono 0, 0, 0⟩)] }

/-- A concrete play session with id 1. -/
def playSession1 : PlaySession := ⟨1, "m1", ⟨0, 1⟩, 0, false, .sr48, .b24⟩

/-- A concrete play session with id 2. -/
def playSession2 : PlaySession := ⟨2, "m1", ⟨0, 1⟩, 0, false, .sr48, .b24⟩

/-! ## Theorems

First the supporting lemmas about the map and reachability helpers, then
one theorem (with witness or counterexample) per specification claim. -/

section AListLemmas

variable {K : Type} {α : Type} [DecidableEq K]

theorem alookup_mem {m : List (K × α)} {k : K} {v : α}
    (h : alookup m k = some v) : (k, v) ∈ m := by
  induction m with
  | nil => simp [alookup] at h
  | cons p m ih =>
    rw [alookup] at h
    split at h
    · next heq =>
      cases p with
      | mk k' v' =>
        simp only [Option.some.injEq] at h
        subst h; subst heq
        exact List.mem_cons_self _ _
    · exact List.mem_cons_of_mem _ (ih h)

theorem all_aupdate {m : List (K × α)} {P : K × α → Bool} {k : K} {v : α}
    (hm : m.all P = true) (hv : P (k, v) = true) :
    (aupdate m k v).all P = true := by
  rw [List.all_eq_true] at hm ⊢
  intro p hp
  rw [aupdate, List.mem_map] at hp
  obtain ⟨q, hq, hpq⟩ := hp
  by_cases h : q.1 = k
  · simp only [h, if_pos] at hpq
    exact hpq ▸ hv
  · simp only [h, if_neg, not_false_iff] at hpq
    exact hpq ▸ hm q hq

theorem all_aerase {m : List (K × α)} {P : K × α → Bool} {k : K}
    (hm : m.all P = true) : (aerase m k).all P = true := by
  rw [List.all_eq_true] at hm ⊢
  intro p hp
  exact hm p (List.mem_of_mem_filter hp)

end AListLemmas

section ReachLemmas

variable {V : Type} [DecidableEq V]

theorem reaches_of_walk {es : List (V × V)} :
    ∀ {a b : V} (l : List V), isWalk es a l b → Reaches es a b := by
  intro a b l
  induction l generalizing a with
  | nil => intro h; exact h ▸ Reaches.refl a
  | cons c l ih =>
    intro h
    exact Reaches.head h.1 (ih h.2)

theorem walk_of_reaches {es : List (V × V)} {a b : V}
    (h : Reaches es a b) : ∃ l, isWalk es a l b := by
  induction h with
  | refl a => exact ⟨[], rfl⟩
  | head hmem _ ih =>
    obtain ⟨l, hl⟩ := ih
    exact ⟨_ :: l, hmem, hl⟩

theorem mem_succs {es : List (V × V)} {a c : V} (h : (a, c) ∈ es) :
    c ∈ succs es a := by
  rw [succs, List.mem_map]
  exact ⟨(a, c), List.mem_filter.2 ⟨h, by simp⟩, rfl⟩

theorem reachN_of_walk {es : List (V × V)} :
    ∀ {a b : V} (l : List V), isWalk es a l b → reachN es l.length a b = true := by
  intro a b l
  induction l generalizing a with
  | nil =>
    intro h
    have hab : a = b := h
    simp [reachN, hab]
  | cons c l ih =>
    intro h
    rw [List.length_cons, reachN, Bool.or_eq_true, List.any_eq_true]
    exact Or.inr ⟨c, mem_succs h.1, ih h.2⟩

theorem reachN_mono {es : List (V × V)} :
    ∀ {n m : Nat} {a b : V}, n ≤ m → reachN es n a b = true → reachN es m a b = true := by
  intro n
  induction n with
  | zero =>
    intro m a b _ h
    rw [reachN] at h
    cases m with
    | zero => exact h
    | succ m => rw [reachN, Bool.or_eq_true]; exact Or.inl h
  | succ n ih =>
    intro m a b hle h
    cases m with
    | zero => exact absurd hle (by omega)
    | succ m =>
      rw [reachN, Bool.or_eq_true, List.any_eq_true] at h ⊢
      rcases h with h | ⟨c, hc, hr⟩
      · exact Or.inl h
      · exact Or.inr ⟨c, hc, ih (by omega) hr⟩

theorem reaches_of_reachN {es : List (V × V)} :
    ∀ {n : Nat} {a b : V}, reachN es n a b = true → Reaches es a b := by
  intro n
  induction n with
  | zero =>
    intro a b h
    rw [reachN, decide_eq_true_eq] at h
    exact h ▸ Reaches.refl a
  | succ n ih =>
    intro a b h
    rw [reachN, Bool.or_eq_true, List.any_eq_true] at h
    rcases h with h | ⟨c, hc, hr⟩
    · rw [decide_eq_true_eq] at h
      exact h ▸ Reaches.refl a
    · rw [succs, List.mem_map] at hc
      obtain ⟨e, he, hec⟩ := hc
      rw [List.mem_filter, decide_eq_true_eq] at he
      have : (a, c) ∈ es := by
        have : e = (a, c) := by
          cases e; simp_all
        exact this ▸ he.1
      exact Reaches.head this (ih hr)

theorem snd_mem_nodesOf {es : List (V × V)} {e : V × V} (h : e ∈ es) :
    e.2 ∈ nodesOf es := by
  induction es with
  | nil => cases h
  | cons e' es ih =>
    rw [nodesOf, List.foldr_cons]
    rcases List.mem_cons.1 h with h | h
    · subst h; exact List.mem_cons_of_mem _ (List.mem_cons_self _ _)
    · exact List.mem_cons_of_mem _ (List.mem_cons_of_mem _ (ih h))

theorem walk_subset_nodes {es : List (V × V)} :
    ∀ {a b : V} (l : List V), isWalk es a l b → ∀ x ∈ l, x ∈ nodesOf es := by
  intro a b l
  induction l generalizing a with
  | nil => intro _ x hx; cases hx
  | cons c l ih =>
    intro h x hx
    rcases List.mem_cons.1 hx with hx | hx
    · exact hx ▸ snd_mem_nodesOf h.1
    · exact ih h.2 x hx

theorem not_nodup_split {l : List V} (h : ¬ l.Nodup) :
    ∃ (p : List V) (x : V) (q : List V) (t : List V),
      l = p ++ x :: (q ++ x :: t) := by
  induction l with
  | nil => exact absurd List.nodup_nil h
  | cons y ys ih =>
    rw [List.nodup_cons] at h
    by_cases hy : y ∈ ys
    · obtain ⟨q, t, hqt⟩ := List.append_of_mem hy
      exact ⟨[], y, q, t, by rw [hqt]; rfl⟩
    · have : ¬ ys.Nodup := fun hn => h ⟨hy, hn⟩
      obtain ⟨p, x, q, t, hl⟩ := ih this
      exact ⟨y :: p, x, q, t, by rw [hl]; rfl⟩

theorem isWalk_append_cons {es : List (V × V)} :
    ∀ (p : List V) {a x b : V} (r : List V),
      isWalk es a (p ++ x :: r) b ↔ isWalk es a (p ++ [x]) x ∧ isWalk es x r b := by
  intro p
  induction p with
  | nil =>
    intro a x b r
    constructor
    · intro h; exact ⟨⟨h.1, rfl⟩, h.2⟩
    · intro h; exact ⟨h.1.1, h.2⟩
  | cons c p ih =>
    intro a x b r
    constructor
    · intro h
      have := (ih r).1 h.2
      exact ⟨⟨h.1, this.1⟩, this.2⟩
    · intro h
      exact ⟨h.1.1, (ih r).2 ⟨h.1.2, h.2⟩⟩

theorem walk_shorten_aux {es : List (V × V)} :
    ∀ (n : Nat) {a b : V} (l : List V), l.length ≤ n → isWalk es a l b →
      ∃ l', isWalk es a l' b ∧ l'.length ≤ (nodesOf es).length := by
  intro n
  induction n with
  | zero =>
    intro a b l hn h
    have : l = [] := List.length_eq_zero.1 (Nat.le_zero.1 hn)
    exact ⟨l, h, by simp [this]⟩
  | succ n ih =>
    intro a b l hn h
    by_cases hshort : l.length ≤ (nodesOf es).length
    · exact ⟨l, h, hshort⟩
    · have hnodup : ¬ l.Nodup := by
        intro hd
        exact hshort (hd.subperm (walk_subset_nodes l h)).length_le
      obtain ⟨p, x, q, t, hl⟩ := not_nodup_split hnodup
      subst hl
      have h1 := (isWalk_append_cons p (q ++ x :: t)).1 h
      have h2 := (isWalk_append_cons q t).1 h1.2
      have hw : isWalk es a (p ++ x :: t) b :=
        (isWalk_append_cons p t).2 ⟨h1.1, h2.2⟩
      have hlen : (p ++ x :: t).length ≤ n := by
        have := hn
        simp only [List.length_append, List.length_cons] at this ⊢
        omega
      exact ih (p ++ x :: t) hlen hw

theorem canReach_of_reaches {es : List (V × V)} {a b : V}
    (h : Reaches es a b) : canReach es a b = true := by
  obtain ⟨l, hl⟩ := walk_of_reaches h
  obtain ⟨l', hw, hlen⟩ := walk_shorten_aux l.length l (Nat.le_refl _) hl
  exact reachN_mono hlen (reachN_of_walk l' hw)

theorem canReach_iff_reaches (es : List (V × V)) (a b : V) :
    canReach es a b = true ↔ Reaches es a b :=
  ⟨reaches_of_reachN, canReach_of_reaches⟩

end ReachLemmas

/-- C7: media retry semantics — a download job in
`failed{error, count: n, will_retry: true}` moves back in progress on the
next attempt with its retry counter equal to `n + 1`, while a job in
`failed{will_retry: false}` is terminal: no sequence of notifications ever
leaves that state. -/
theorem claim_c7_media_retry :
    (∀ (e : String) (n : Int),
      mediaDownloadNotify (.failed e n true) .attempt = .downloading 0 (n + 1)) ∧
    (∀ (e : String) (n : Int) (evs : List MediaJobEvent),
      mediaDownloadRun (.failed e n false) evs = .failed e n false) := by
  refine ⟨fun e n => rfl, fun e n evs => ?_⟩
  induction evs with
  | nil => rfl
  | cons ev evs ih =>
    have hstep : mediaDownloadNotify (.failed e n false) ev = .failed e n false := by
      cases ev <;> rfl
    rw [mediaDownloadRun, hstep, ih]

/-- C8: eviction applies only to downloads — `MediaUploadState` has exactly
the variants `pending`, `uploading`, `completed` and `failed` (no
`evicted`); a download job transitions into `evicted` only from `pending`
or `downloading` and only when the object is unreferenced past the
retention window; and `evicted` is terminal: no sequence of notifications
leaves it. -/
theorem claim_c8_eviction_downloads_only :
    (∀ s : MediaUploadState,
      s = .pending ∨ (∃ p r, s = .uploading p r) ∨ s = .completed ∨
        ∃ e c w, s = .failed e c w) ∧
    (∀ (s : MediaDownloadState) (ev : MediaJobEvent),
      mediaDownloadNotify s ev = .evicted → s ≠ .evicted →
        (s = .pending ∨ ∃ p r, s = .downloading p r) ∧ ev = .evict true) ∧
    (∀ evs : List MediaJobEvent, mediaDownloadRun .evicted evs = .evicted) := by
  refine ⟨fun s => ?_, fun s ev h hne => ?_, fun evs => ?_⟩
  · cases s with
    | pending => exact Or.inl rfl
    | uploading p r => exact Or.inr (Or.inl ⟨p, r, rfl⟩)
    | completed => exact Or.inr (Or.inr (Or.inl rfl))
    | failed e c w => exact Or.inr (Or.inr (Or.inr ⟨e, c, w, rfl⟩))
  · cases s with
    | pending =>
      cases ev with
      | evict b =>
        cases b with
        | false => exact absurd h (by decide)
        | true => exact ⟨Or.inl rfl, rfl⟩
      | start => exact absurd h (by decide)
      | progress p => exact absurd h (by simp [mediaDownloadNotify])
      | complete => exact absurd h (by decide)
      | fail e w => exact absurd h (by simp [mediaDownloadNotify])
      | attempt => exact absurd h (by decide)
    | downloading p r =>
      cases ev with
      | evict b =>
        cases b with
        | false => exact absurd h (by simp [mediaDownloadNotify])
        | true => exact ⟨Or.inr ⟨p, r, rfl⟩, rfl⟩
      | start => exact absurd h (by simp [mediaDownloadNotify])
      | progress q => exact absurd h (by simp [mediaDownloadNotify])
      | complete => exact absurd h (by simp [mediaDownloadNotify])
      | fail e w => exact absurd h (by simp [mediaDownloadNotify])
      | attempt => exact absurd h (by simp [mediaDownloadNotify])
    | completed =>
      cases ev <;> simp [mediaDownloadNotify] at h
    | failed e c w =>
      cases ev with
      | attempt =>
        cases w <;> simp [mediaDownloadNotify] at h
      | evict b => cases b <;> simp [mediaDownloadNotify] at h
      | start => simp [mediaDownloadNotify] at h
      | progress q => simp [mediaDownloadNotify] at h
      | complete => simp [mediaDownloadNotify] at h
      | fail e' w' => simp [mediaDownloadNotify] at h
    | evicted => exact absurd rfl hne
  · induction evs with
    | nil => rfl
    | cons ev evs ih =>
      have hstep : mediaDownloadNotify .evicted ev = .evicted := by
        cases ev <;> rfl
      rw [mediaDownloadRun, hstep, ih]

/-- C8 witness: a pending download unreferenced past the retention window
is evicted, and the theorem's characterization applies to it. -/
theorem claim_c8_witness :
    ((MediaDownloadState.pending = .pending ∨
        ∃ p r, MediaDownloadState.pending = .downloading p r) ∧
      MediaJobEvent.evict true = .evict true) ∧
    mediaDownloadRun .evicted [.start, .attempt] = .evicted :=
  ⟨claim_c8_eviction_downloads_only.2.1 .pending (.evict true) rfl (by decide),
   claim_c8_eviction_downloads_only.2.2 [.start, .attempt]⟩

/-- C5: engine failure handling — consuming a `playing_failed` or
`rendering_failed` event forces the mode to `idle` and surfaces exactly one
`SessionPacketError` to subscribers; and no sequence of further engine
events (that is, without a new client-issued desired-state command) ever
makes the core issue a play or render request to the engine. -/
theorem claim_c5_engine_failure :
    (∀ (m : SessionMode) (sid : AppSessionId) (pid : PlayId) (err : String),
      engineStep m (.playing_failed sid pid err) = (.idle, [.playing pid err])) ∧
    (∀ (m : SessionMode) (sid : AppSessionId) (rid : RenderId) (reason : String),
      engineStep m (.rendering_failed sid rid reason) = (.idle, [.rendering rid reason])) ∧
    (∀ (m : SessionMode) (evs : List AudioEngineEvent),
      (coreRun m (evs.map .engine)).2.1 = []) := by
  refine ⟨fun m sid pid err => rfl, fun m sid rid reason => rfl, fun m evs => ?_⟩
  induction evs generalizing m with
  | nil => rfl
  | cons ev evs ih =>
    rw [List.map_cons, coreRun]
    simp only [coreStep]
    rw [ih]
    rfl

/-- C6: playback re-targeting and stale-ack rejection — from `idle`,
`desired = play(P1)` moves the mode to `preparing_to_play(P1)`; an engine
`playing` ack carrying P1 then moves it to `playing(P1)`; if instead
`desired = play(P2)` arrives before any ack, the mode re-targets to
`preparing_to_play(P2)`, and a late ack carrying P1 leaves it unchanged. -/
theorem claim_c6_retarget_stale_ack (P1 P2 : PlaySession)
    (h : P1.play_id ≠ P2.play_id)
    (sid : AppSessionId) (audio : CompressedAudio)
    (pm : List (SessionFlowId × MultiChannelValue))
    (dr : List (DynamicId × List (ReportId × MultiChannelTimestampedValue))) :
    (desiredStep .idle (.play P1)).1 = .preparing_to_play P1.play_id ∧
    (engineStep (.preparing_to_play P1.play_id)
        (.playing sid P1.play_id audio pm dr)).1 = .playing P1.play_id ∧
    (desiredStep (.preparing_to_play P1.play_id) (.play P2)).1
      = .preparing_to_play P2.play_id ∧
    (engineStep (.preparing_to_play P2.play_id)
        (.playing sid P1.play_id audio pm dr)).1 = .preparing_to_play P2.play_id := by
  have h21 : P2.play_id ≠ P1.play_id := fun hh => h hh.symm
  refine ⟨?_, ?_, ?_, ?_⟩
  · simp [desiredStep]
  · simp [engineStep]
  · simp [desiredStep, h]
  · simp [engineStep, h21]

/-- C6 witness: the re-targeting scenario at the concrete play sessions
with ids 1 and 2. -/
theorem claim_c6_witness :
    (desiredStep .idle (.play playSession1)).1 = .preparing_to_play playSession1.play_id ∧
    (engineStep (.preparing_to_play playSession1.play_id)
        (.playing "app1/sess1" playSession1.play_id ⟨1, 0, 0, false⟩ [] [])).1
      = .playing playSession1.play_id ∧
    (desiredStep (.preparing_to_play playSession1.play_id) (.play playSession2)).1
      = .preparing_to_play playSession2.play_id ∧
    (engineStep (.preparing_to_play playSession2.play_id)
        (.playing "app1/sess1" playSession1.play_id ⟨1, 0, 0, false⟩ [] [])).1
      = .preparing_to_play playSession2.play_id :=
  claim_c6_retarget_stale_ack playSession1 playSession2 (by decide)
    "app1/sess1" ⟨1, 0, 0, false⟩ [] []

/-- C10: desired state is always stable — `DesiredSessionPlayState` offers
exactly the variants `play`, `render` and `stopped`; no desired state
carried by a `set_desired_play_state` command names a transitional mode as
its goal; engine events never move a non-transitional mode into a
transitional one; and a desired-state step lands in a transitional mode
only by the machine's own transition toward that desire (or by leaving an
already-transitional mode in place) — never because a command named the
transitional mode directly. -/
theorem claim_c10_desired_state_stable :
    (∀ d : DesiredSessionPlayState,
      (∃ p, d = .play p) ∨ (∃ r, d = .render r) ∨ d = .stopped) ∧
    (∀ (cmd : DomainSessionCommand) (d : DesiredSessionPlayState),
      commandDesired cmd = some d → isTransitional (desiredTarget d) = false) ∧
    (∀ (m : SessionMode) (e : AudioEngineEvent),
      isTransitional (engineStep m e).1 = true → isTransitional m = true) ∧
    (∀ (m : SessionMode) (d : DesiredSessionPlayState) (id : PlayId),
      (desiredStep m d).1 = .preparing_to_play id →
        (∃ p, d = .play p ∧ p.play_id = id) ∨ m = .preparing_to_play id) ∧
    (∀ (m : SessionMode) (d : DesiredSessionPlayState) (id : RenderId),
      (desiredStep m d).1 = .preparing_to_render id →
        (∃ r, d = .render r ∧ r.render_id = id) ∨ m = .preparing_to_render id) ∧
    (∀ (m : SessionMode) (d : DesiredSessionPlayState) (id : PlayId),
      (desiredStep m d).1 = .stopping_play id →
        (d = .stopped ∧ (m = .playing id ∨ m = .preparing_to_play id)) ∨
          m = .stopping_play id) ∧
    (∀ (m : SessionMode) (d : DesiredSessionPlayState) (id : RenderId),
      (desiredStep m d).1 = .stopping_render id →
        (d = .stopped ∧ (m = .rendering id ∨ m = .preparing_to_render id)) ∨
          m = .stopping_render id) := by
  refine ⟨fun d => ?_, fun cmd d _ => ?_, fun m e h => ?_,
    fun m d id h => ?_, fun m d id h => ?_, fun m d id h => ?_, fun m d id h => ?_⟩
  · cases d with
    | play p => exact Or.inl ⟨p, rfl⟩
    | render r => exact Or.inr (Or.inl ⟨r, rfl⟩)
    | stopped => exact Or.inr (Or.inr rfl)
  · cases d <;> rfl
  · cases e with
    | loaded => exact h
    | stopped sid => cases m <;> simp_all [engineStep, isTransitional]
    | playing sid pid audio pm dr =>
      simp only [engineStep] at h
      split at h
      · simp [isTransitional] at h
      · exact h
    | playing_failed sid pid err => simp [engineStep, isTransitional] at h
    | rendering sid rid c =>
      simp only [engineStep] at h
      split at h
      · simp [isTransitional] at h
      · exact h
    | rendering_finished sid rid p =>
      simp only [engineStep] at h
      split at h
      · simp [isTransitional] at h
      · exact h
    | rendering_failed sid rid reason => simp [engineStep, isTransitional] at h
    | error sid err => simp [engineStep, isTransitional] at h
  · cases d with
    | play p =>
      simp only [desiredStep] at h
      split at h
      · exact Or.inr h
      · simp only at h
        rw [SessionMode.preparing_to_play.injEq] at h
        exact Or.inl ⟨p, rfl, h⟩
    | render r =>
      simp only [desiredStep] at h
      split at h
      · exact Or.inr h
      · simp at h
    | stopped =>
      simp only [desiredStep] at h
      cases m <;> simp_all
  · cases d with
    | play p =>
      simp only [desiredStep] at h
      split at h
      · exact Or.inr h
      · simp at h
    | render r =>
      simp only [desiredStep] at h
      split at h
      · exact Or.inr h
      · simp only at h
        rw [SessionMode.preparing_to_render.injEq] at h
        exact Or.inl ⟨r, rfl, h⟩
    | stopped =>
      simp only [desiredStep] at h
      cases m <;> simp_all
  · cases d with
    | play p =>
      simp only [desiredStep] at h
      split at h
      · exact Or.inr h
      · simp at h
    | render r =>
      simp only [desiredStep] at h
      split at h
      · exact Or.inr h
      · simp at h
    | stopped =>
      simp only [desiredStep] at h
      cases m with
      | playing pid =>
        simp only at h
        rw [SessionMode.stopping_play.injEq] at h
        subst h
        exact Or.inl ⟨rfl, Or.inl rfl⟩
      | preparing_to_play pid =>
        simp only at h
        rw [SessionMode.stopping_play.injEq] at h
        subst h
        exact Or.inl ⟨rfl, Or.inr rfl⟩
      | rendering rid => simp at h
      | preparing_to_render rid => simp at h
      | idle => simp at h
      | stopping_play pid =>
        simp only at h
        rw [SessionMode.stopping_play.injEq] at h
        subst h
        exact Or.inr rfl
      | stopping_render rid => simp at h
  · cases d with
    | play p =>
      simp only [desiredStep] at h
      split at h
      · exact Or.inr h
      · simp at h
    | render r =>
      simp only [desiredStep] at h
      split at h
      · exact Or.inr h
      · simp at h
    | stopped =>
      simp only [desiredStep] at h
      cases m with
      | rendering rid =>
        simp only at h
        rw [SessionMode.stopping_render.injEq] at h
        subst h
        exact Or.inl ⟨rfl, Or.inl rfl⟩
      | preparing_to_render rid =>
        simp only at h
        rw [SessionMode.stopping_render.injEq] at h
        subst h
        exact Or.inl ⟨rfl, Or.inr rfl⟩
      | playing pid => simp at h
      | preparing_to_play pid => simp at h
      | idle => simp at h
      | stopping_render rid =>
        simp only at h
        rw [SessionMode.stopping_render.injEq] at h
        subst h
        exact Or.inr rfl
      | stopping_play pid => simp at h

/-- C10 witness: no client command names a transitional mode, and the
machine itself enters `preparing_to_play` only toward the client's play
target — checked at a concrete command and a concrete play desire. -/
theorem claim_c10_witness :
    isTransitional (desiredTarget .stopped) = false ∧
    ((∃ p, DesiredSessionPlayState.play playSession1 = .play p ∧ p.play_id = 1) ∨
      SessionMode.idle = .preparing_to_play 1) :=
  ⟨claim_c10_desired_state_stable.2.1 (.set_desired_play_state "app1/sess1" 0 .stopped)
      .stopped rfl,
   claim_c10_desired_state_stable.2.2.2.1 .idle (.play playSession1) 1 (by decide)⟩

/-- C2: version increments by exactly one per committed batch — whenever a
proposed batch applies successfully, the committed session's version is the
previous version plus one, regardless of batch size; hence the version
strictly increases across successful commits. -/
theorem claim_c2_version_increment (s : VersionedSession) (expected : Int)
    (ops : List ModifySessionSpec) (s' : VersionedSession)
    (h : propose s expected ops = .ok s') :
    s'.version = s.version + 1 ∧ s.version < s'.version := by
  rw [propose] at h
  split at h
  · exact absurd h (by simp)
  · split at h
    · next g' heq =>
      have hs : ({ s with graph := g', version := s.version + 1 } : VersionedSession) = s' := by
        simpa using h
      refine ⟨?_, ?_⟩
      · rw [← hs]
      · rw [← hs]; simp
    · exact absurd h (by simp)

/-- C2 witness: committing a one-operation batch on the fresh session moves
the version from 0 to 1. -/
theorem claim_c2_witness :
    ({ session0 with
        graph := { emptyGraph with tracks := [("t", ⟨.mono, []⟩)] },
        version := 1 } : VersionedSession).version = session0.version + 1 ∧
      session0.version <
        ({ session0 with
            graph := { emptyGraph with tracks := [("t", ⟨.mono, []⟩)] },
            version := 1 } : VersionedSession).version :=
  claim_c2_version_increment session0 0 [.add_track "t" .mono] _ (by decide)

/-- C4: optimistic concurrency — `propose` is rejected with `Conflict`
exactly when the expected version differs from the current version; a
conflict leaves the session (graph, security map and version) unchanged;
and of two proposals submitted against the same expected (current) version,
where the first one's batch applies, the first succeeds and the second is
rejected with `Conflict` — exactly one wins. -/
theorem claim_c4_optimistic_concurrency (s : VersionedSession) (expected : Int)
    (ops ops2 : List ModifySessionSpec) :
    (propose s expected ops = .error .conflict ↔ expected ≠ s.version) ∧
    (expected ≠ s.version → proposeState s expected ops = s) ∧
    (∀ g1, applyBatch s.graph ops = .ok g1 →
      propose s s.version ops = .ok { s with graph := g1, version := s.version + 1 } ∧
        propose (proposeState s s.version ops) s.version ops2 = .error .conflict) := by
  refine ⟨⟨fun h => ?_, fun h => ?_⟩, fun h => ?_, fun g1 h => ?_⟩
  · by_contra hv
    rw [propose, if_neg (by simp [hv])] at h
    split at h
    · exact absurd h (by simp)
    · exact absurd h (by simp)
  · rw [propose, if_pos h]
  · rw [proposeState, propose, if_pos h]
  · have hne : ¬ (s.version ≠ s.version) := by simp
    have hfirst : propose s s.version ops
        = .ok { s with graph := g1, version := s.version + 1 } := by
      rw [propose, if_neg hne, h]
    refine ⟨hfirst, ?_⟩
    have hstate : proposeState s s.version ops
        = { s with graph := g1, version := s.version + 1 } := by
      rw [proposeState, hfirst]
    rw [hstate, propose, if_pos (by simp)]

/-- C4 witness: a stale expected version is rejected with `Conflict` and
changes nothing; against the current version, the first of two proposals
wins and the second receives `Conflict`. -/
theorem claim_c4_witness :
    (propose session0 1 [] = .error .conflict ↔ (1 : Int) ≠ session0.version) ∧
    proposeState session0 1 [] = session0 ∧
    (propose session0 session0.version [.add_track "t" .mono]
        = .ok { session0 with
            graph := { emptyGraph with tracks := [("t", ⟨.mono, []⟩)] },
            version := session0.version + 1 } ∧
      propose (proposeState session0 session0.version [.add_track "t" .mono])
          session0.version [.add_track "u" .stereo] = .error .conflict) :=
  ⟨(claim_c4_optimistic_concurrency session0 1 [] []).1,
   (claim_c4_optimistic_concurrency session0 1 [] []).2.1 (by decide),
   (claim_c4_optimistic_concurrency session0 0 [.add_track "t" .mono]
      [.add_track "u" .stereo]).2.2
     { emptyGraph with tracks := [("t", ⟨.mono, []⟩)] } (by decide)⟩

/-- Applying a concatenated batch runs the first part and, if it succeeds,
continues with the second on the intermediate graph. -/
theorem applyBatch_append (g : TopologyGraph) (l1 l2 : List ModifySessionSpec) :
    applyBatch g (l1 ++ l2) =
      match applyBatch g l1 with
      | .ok g' => applyBatch g' l2
      | .error e => .error e := by
  induction l1 generalizing g with
  | nil => rfl
  | cons op l1 ih =>
    simp only [List.cons_append, applyBatch]
    cases applyOp g op with
    | ok g' => exact ih g'
    | error e => rfl

/-- C1: batch application is atomic — if the batch fails at operation `k`
(the prefix before `k` applies cleanly and operation `k` returns a
`ModifySessionError`), the whole proposal is rejected with that error and
the session the domain holds afterwards — graph, security map and version —
is exactly the pre-batch session: no partially-applied graph is ever
observable. -/
theorem claim_c1_batch_atomicity (s : VersionedSession) (ops : List ModifySessionSpec)
    (k : Nat) (gk : TopologyGraph) (op : ModifySessionSpec) (e : ModifySessionError)
    (hpre : applyBatch s.graph (ops.take k) = .ok gk)
    (hop : ops[k]? = some op)
    (hfail : applyOp gk op = .error (.rejected e)) :
    propose s s.version ops = .error (.failed (.rejected e)) ∧
      proposeState s s.version ops = s := by
  have hk : k < ops.length := by
    by_contra hk
    rw [List.getElem?_eq_none (by omega)] at hop
    exact absurd hop (by simp)
  have hval : ops[k] = op := by
    rw [List.getElem?_eq_getElem hk] at hop
    exact Option.some.inj hop
  have hdecomp : ops = ops.take k ++ op :: ops.drop (k + 1) := by
    conv_lhs => rw [← List.take_append_drop k ops]
    rw [List.drop_eq_getElem_cons hk, hval]
  have hbatch : applyBatch s.graph ops = .error (.rejected e) := by
    rw [hdecomp, applyBatch_append, hpre]
    simp only [applyBatch, hfail]
  have hne : ¬ (s.version ≠ s.version) := by simp
  constructor
  · rw [propose, if_neg hne, hbatch]
  · rw [proposeState, propose, if_neg hne, hbatch]

/-- C1 witness: a two-operation batch whose second operation fails with
`track_exists` is rejected whole and leaves the fresh session untouched. -/
theorem claim_c1_witness :
    propose session0 0 [.add_track "t" .mono, .add_track "t" .mono]
      = .error (.failed (.rejected (.track_exists "t"))) ∧
    proposeState session0 0 [.add_track "t" .mono, .add_track "t" .mono] = session0 :=
  claim_c1_batch_atomicity session0 [.add_track "t" .mono, .add_track "t" .mono] 1
    { emptyGraph with tracks := [("t", ⟨.mono, []⟩)] }
    (.add_track "t" .mono) (.track_exists "t")
    (by decide) (by decide) (by decide)

/-- A rejected proposal leaves the held session untouched. -/
theorem proposeState_of_error {s : VersionedSession} {e : Int}
    {ops : List ModifySessionSpec} {err : ProposeError}
    (h : propose s e ops = .error err) : proposeState s e ops = s := by
  rw [proposeState, h]

/-- C3 counterexample: with A→B→C already connected (graph `c3Graph`), the
sink of `add_connection("c1", C→A)` already reaches its source, yet the
operation does not fail with `cycle_detected` as the claim states — the
duplicate connection id is rejected as `connection_exists` first, because
existence preconditions run before the cycle check (§4.1). -/
theorem claim_c3_counterexample :
    canReach (edgesOf c3Graph) (.track "A") (.track "C") = true ∧
    applyOp c3Graph
        (.add_connection "c1" (.track "C") (.track "A") (.mono 0) (.mono 0) none none)
      = .error (.rejected (.connection_exists "c1")) ∧
    applyOp c3Graph
        (.add_connection "c1" (.track "C") (.track "A") (.mono 0) (.mono 0) none none)
      ≠ .error (.rejected .cycle_detected) := by
  refine ⟨by decide, by decide, by decide⟩

/-- C3 (amended): cycle detection on `add_connection` — provided the
operation's other validations pass (schema-valid pan, fresh connection id,
both endpoints present, compatible channel counts), the operation fails
with `cycle_detected` exactly when the sink `t` can already reach the
source `f` through existing connections, leaving the session unchanged; and
succeeds, inserting the connection, when it cannot (in particular when `t`
is unconnected). -/
theorem claim_c3_cycle_detection (g : TopologyGraph) (cid : ConnectionId)
    (f t : SessionFlowId) (fc tc : MixerChannels) (vol pan : Option ℚ)
    (hpan : panOk pan = true)
    (hfresh : alookup g.connections cid = none)
    (hf : flowExists g f = true) (ht : flowExists g t = true)
    (hch : (flowChannelsOk g f fc && flowChannelsOk g t tc) = true) :
    (Reaches (edgesOf g) t f →
      applyOp g (.add_connection cid f t fc tc vol pan)
          = .error (.rejected .cycle_detected) ∧
        ∀ (v : Int) (did : DomainId) (aid : AppId) (tr : JsonTimeRange)
          (sec : List (SecureKey × SessionSecurity)) (del : Bool),
          proposeState ⟨v, did, aid, tr, g, sec, del⟩ v
              [.add_connection cid f t fc tc vol pan]
            = ⟨v, did, aid, tr, g, sec, del⟩) ∧
    (¬ Reaches (edgesOf g) t f →
      applyOp g (.add_connection cid f t fc tc vol pan)
        = .ok { g with connections :=
            (cid, ⟨f, t, fc, tc, vol.getD 0, pan.getD 0⟩) :: g.connections }) := by
  have happ : applyOp g (.add_connection cid f t fc tc vol pan)
      = if canReach (edgesOf g) t f then .error (.rejected .cycle_detected)
        else .ok { g with connections :=
            (cid, ⟨f, t, fc, tc, vol.getD 0, pan.getD 0⟩) :: g.connections } := by
    simp [applyOp, hpan, hfresh, hf, ht, hch]
  constructor
  · intro hr
    have hcr : canReach (edgesOf g) t f = true := canReach_of_reaches hr
    have herr : applyOp g (.add_connection cid f t fc tc vol pan)
        = .error (.rejected .cycle_detected) := by
      rw [happ, if_pos hcr]
    refine ⟨herr, ?_⟩
    intro v did aid tr sec del
    apply proposeState_of_error
    rw [propose, if_neg (by simp)]
    have hone : applyBatch g [ModifySessionSpec.add_connection cid f t fc tc vol pan]
        = .error (.rejected .cycle_detected) := by
      simp only [applyBatch]
      rw [herr]
    simp only [hone]
    rfl
  · intro hnr
    have hcr : canReach (edgesOf g) t f = false := by
      rw [Bool.eq_false_iff]
      intro hc
      exact hnr ((canReach_iff_reaches _ _ _).1 hc)
    rw [happ, if_neg (by simp [hcr])]

/-- C3 witness: on `c3Graph` (A→B→C connected), adding C→A under a fresh id
fails with `cycle_detected`, and adding C→D (D unconnected) succeeds. -/
theorem claim_c3_witness :
    applyOp c3Graph
        (.add_connection "c3" (.track "C") (.track "A") (.mono 0) (.mono 0) none none)
      = .error (.rejected .cycle_detected) ∧
    applyOp c3Graph
        (.add_connection "c4" (.track "C") (.track "D") (.mono 0) (.mono 0) none none)
      = .ok { c3Graph with connections :=
          ("c4", ⟨.track "C", .track "D", .mono 0, .mono 0, 0, 0⟩) :: c3Graph.connections } :=
  ⟨((claim_c3_cycle_detection c3Graph "c3" (.track "C") (.track "A") (.mono 0) (.mono 0)
      none none (by decide) (by decide) (by decide) (by decide) (by decide)).1
      ((canReach_iff_reaches (edgesOf c3Graph) (.track "A") (.track "C")).1 (by decide))).1,
   (claim_c3_cycle_detection c3Graph "c4" (.track "C") (.track "D") (.mono 0) (.mono 0)
      none none (by decide) (by decide) (by decide) (by decide) (by decide)).2
     (fun hr => absurd ((canReach_iff_reaches (edgesOf c3Graph)
        (.track "D") (.track "C")).2 hr) (by decide))⟩

/-- Filtering keeps a `List.all` property. -/
theorem all_filter_of_all {α : Type} {l : List α} {P q : α → Bool}
    (h : l.all P = true) : (l.filter q).all P = true := by
  rw [List.all_eq_true] at h ⊢
  exact fun a ha => h a (List.mem_of_mem_filter ha)

/-- A schema-valid optional pan resolves, with default 0, into bounds. -/
theorem panInRange_getD {pan : Option ℚ} (h : panOk pan = true) :
    panInRange (pan.getD 0) = true := by
  cases pan with
  | none => decide
  | some p => exact h

/-- A schema-valid optional pan resolves into bounds over any in-bounds
fallback. -/
theorem panOk_getD {o : Option ℚ} {d : ℚ} (ho : panOk o = true)
    (hd : panInRange d = true) : panInRange (o.getD d) = true := by
  cases o with
  | none => exact hd
  | some p => exact ho

/-- Cascade deletion only removes entries, so it keeps the pan invariant. -/
theorem cascadeDelete_panInvariant {g : TopologyGraph} {obj : SessionObjectId}
    (hg : panInvariant g = true) : panInvariant (cascadeDelete g obj) = true := by
  simp only [panInvariant, Bool.and_eq_true] at hg ⊢
  obtain ⟨h1, h2, h3, h4⟩ := hg
  simp only [cascadeDelete]
  refine ⟨all_filter_of_all h1, ?_, ?_, ?_⟩
  · rw [List.all_eq_true]
    intro p hp
    rw [List.mem_map] at hp
    obtain ⟨q', hq', rfl⟩ := hp
    exact all_filter_of_all ((List.all_eq_true.1 h2) q' hq')
  · rw [List.all_eq_true]
    intro p hp
    rw [List.mem_map] at hp
    obtain ⟨q', hq', rfl⟩ := hp
    exact all_filter_of_all ((List.all_eq_true.1 h3) q' hq')
  · rw [List.all_eq_true]
    intro p hp
    rw [List.mem_map] at hp
    obtain ⟨q', hq', rfl⟩ := hp
    exact all_filter_of_all ((List.all_eq_true.1 h4) q' hq')

/-- A stored value of an invariant map satisfies the entry property. -/
theorem all_of_alookup {K α : Type} [DecidableEq K] {m : List (K × α)}
    {P : K × α → Bool} {k : K} {v : α}
    (hm : m.all P = true) (h : alookup m k = some v) : P (k, v) = true :=
  (List.all_eq_true.1 hm) (k, v) (alookup_mem h)

/-- Every operation the applier accepts preserves the pan invariant. -/
theorem applyOp_panInvariant {g g' : TopologyGraph} {op : ModifySessionSpec}
    (hg : panInvariant g = true) (h : applyOp g op = .ok g') :
    panInvariant g' = true := by
  cases op with
  | add_track tid ch =>
    simp only [applyOp] at h
    split at h
    · simp at h
    · injection h with h
      subst h
      exact hg
  | add_track_media tid mid spec =>
    simp only [applyOp] at h
    split at h
    · simp at h
    · split at h
      · simp at h
      · injection h with h
        subst h
        exact hg
  | update_track_media tid mid upd =>
    simp only [applyOp] at h
    split at h
    · simp at h
    · split at h
      · simp at h
      · injection h with h
        subst h
        exact hg
  | delete_track_media tid mid =>
    simp only [applyOp] at h
    split at h
    · simp at h
    · split at h
      · injection h with h
        subst h
        exact hg
      · simp at h
  | delete_track tid =>
    simp only [applyOp] at h
    split at h
    · injection h with h
      subst h
      exact cascadeDelete_panInvariant hg
    · simp at h
  | add_fixed_instance fid process =>
    simp only [applyOp] at h
    split at h
    · simp at h
    · split at h
      · rename_i hv
        injection h with h
        subst h
        simp only [panInvariant, Bool.and_eq_true, List.all_cons] at hg ⊢
        exact ⟨hg.1, hg.2.1, ⟨hv, hg.2.2.1⟩, hg.2.2.2⟩
      · simp at h
  | add_dynamic_instance did process =>
    simp only [applyOp] at h
    split at h
    · simp at h
    · split at h
      · rename_i hv
        injection h with h
        subst h
        simp only [panInvariant, Bool.and_eq_true, List.all_cons] at hg ⊢
        exact ⟨hg.1, hg.2.1, hg.2.2.1, ⟨hv, hg.2.2.2⟩⟩
      · simp at h
  | add_mixer mid mixer =>
    simp only [applyOp] at h
    split at h
    · simp at h
    · split at h
      · rename_i hv
        injection h with h
        subst h
        simp only [panInvariant, Bool.and_eq_true, List.all_cons] at hg ⊢
        exact ⟨hg.1, ⟨hv, hg.2.1⟩, hg.2.2⟩
      · simp at h
  | delete_mixer mid =>
    simp only [applyOp] at h
    split at h
    · injection h with h
      subst h
      have hinner : panInvariant { g with mixers := aerase g.mixers mid } = true := by
        simp only [panInvariant, Bool.and_eq_true] at hg ⊢
        exact ⟨hg.1, all_aerase hg.2.1, hg.2.2⟩
      exact cascadeDelete_panInvariant hinner
    · simp at h
  | delete_fixed_instance fid =>
    simp only [applyOp] at h
    split at h
    · injection h with h
      subst h
      have hinner : panInvariant { g with fixed := aerase g.fixed fid } = true := by
        simp only [panInvariant, Bool.and_eq_true] at hg ⊢
        exact ⟨hg.1, hg.2.1, all_aerase hg.2.2.1, hg.2.2.2⟩
      exact cascadeDelete_panInvariant hinner
    · simp at h
  | delete_dynamic_instance did =>
    simp only [applyOp] at h
    split at h
    · injection h with h
      subst h
      have hinner : panInvariant { g with dynamic := aerase g.dynamic did } = true := by
        simp only [panInvariant, Bool.and_eq_true] at hg ⊢
        exact ⟨hg.1, hg.2.1, hg.2.2.1, all_aerase hg.2.2.2⟩
      exact cascadeDelete_panInvariant hinner
    · simp at h
  | delete_connection cid =>
    simp only [applyOp] at h
    split at h
    · injection h with h
      subst h
      simp only [panInvariant, Bool.and_eq_true] at hg ⊢
      exact ⟨all_aerase hg.1, hg.2⟩
    · simp at h
  | add_connection cid f t fc tc vol pan =>
    by_cases hp : panOk pan = true
    · simp only [applyOp] at h
      rw [if_neg (by simp [hp])] at h
      split at h
      · simp at h
      · split at h
        · simp at h
        · split at h
          · simp at h
          · split at h
            · simp at h
            · split at h
              · simp at h
              · injection h with h
                subst h
                simp only [panInvariant, Bool.and_eq_true, List.all_cons] at hg ⊢
                exact ⟨⟨panInRange_getD hp, hg.1⟩, hg.2⟩
    · simp only [applyOp] at h
      rw [if_pos (by simp [hp])] at h
      simp at h
  | set_connection_parameter_values cid values =>
    by_cases hp : panOk values.pan = true
    · simp only [applyOp] at h
      rw [if_neg (by simp [hp])] at h
      split at h
      · simp at h
      · rename_i c heq
        injection h with h
        subst h
        simp only [panInvariant, Bool.and_eq_true] at hg ⊢
        exact ⟨all_aupdate hg.1 (panOk_getD hp (all_of_alookup hg.1 heq)), hg.2⟩
    · simp only [applyOp] at h
      rw [if_pos (by simp [hp])] at h
      simp at h
  | set_fixed_instance_parameter_values fid values =>
    simp only [applyOp] at h
    split at h
    · simp at h
    · rename_i inst heq
      injection h with h
      subst h
      simp only [panInvariant, Bool.and_eq_true] at hg ⊢
      have hP := all_of_alookup hg.2.2.1 heq
      exact ⟨hg.1, hg.2.1, all_aupdate hg.2.2.1 hP, hg.2.2.2⟩
  | set_dynamic_instance_parameter_values did values =>
    simp only [applyOp] at h
    split at h
    · simp at h
    · rename_i inst heq
      injection h with h
      subst h
      simp only [panInvariant, Bool.and_eq_true] at hg ⊢
      have hP := all_of_alookup hg.2.2.2 heq
      exact ⟨hg.1, hg.2.1, hg.2.2.1, all_aupdate hg.2.2.2 hP⟩
  | add_mixer_input smid iid input =>
    by_cases hv : mixerInputValid input = true
    · cases smid with
      | mixer id =>
        simp only [applyOp] at h
        rw [if_neg (by simp [hv])] at h
        split at h
        · simp at h
        · rename_i mx heq
          split at h
          · simp at h
          · injection h with h
            subst h
            simp only [panInvariant, Bool.and_eq_true] at hg ⊢
            refine ⟨hg.1, all_aupdate hg.2.1 ?_, hg.2.2⟩
            have hmx := all_of_alookup hg.2.1 heq
            rw [inputsOk, List.all_cons, Bool.and_eq_true]
            exact ⟨hv, hmx⟩
      | fixed_instance id =>
        simp only [applyOp] at h
        rw [if_neg (by simp [hv])] at h
        split at h
        · simp at h
        · rename_i inst heq
          split at h
          · simp at h
          · injection h with h
            subst h
            simp only [panInvariant, Bool.and_eq_true] at hg ⊢
            refine ⟨hg.1, hg.2.1, all_aupdate hg.2.2.1 ?_, hg.2.2.2⟩
            have hmx := all_of_alookup hg.2.2.1 heq
            rw [inputsOk, List.all_cons, Bool.and_eq_true]
            exact ⟨hv, hmx⟩
      | dynamic_instance id =>
        simp only [applyOp] at h
        rw [if_neg (by simp [hv])] at h
        split at h
        · simp at h
        · rename_i inst heq
          split at h
          · simp at h
          · injection h with h
            subst h
            simp only [panInvariant, Bool.and_eq_true] at hg ⊢
            refine ⟨hg.1, hg.2.1, hg.2.2.1, all_aupdate hg.2.2.2 ?_⟩
            have hmx := all_of_alookup hg.2.2.2 heq
            rw [inputsOk, List.all_cons, Bool.and_eq_true]
            exact ⟨hv, hmx⟩
    · simp only [applyOp] at h
      rw [if_pos (by simp [hv])] at h
      simp at h

/-- Every batch the applier accepts preserves the pan invariant. -/
theorem applyBatch_panInvariant {ops : List ModifySessionSpec} :
    ∀ {g g' : TopologyGraph}, panInvariant g = true →
      applyBatch g ops = .ok g' → panInvariant g' = true := by
  induction ops with
  | nil =>
    intro g g' hg h
    rw [applyBatch] at h
    injection h with h
    subst h
    exact hg
  | cons op ops ih =>
    intro g g' hg h
    rw [applyBatch] at h
    cases happ : applyOp g op with
    | ok gm =>
      rw [happ] at h
      exact ih (applyOp_panInvariant hg happ) h
    | error e =>
      rw [happ] at h
      simp at h

/-- C9: pan bounds invariant — every graph reachable through any sequence
of applied batches keeps every connection's and every mixer/instance
input's pan inside the schema bounds `[-1, 1]`; an `add_connection` or
`add_mixer_input` whose pan lies outside `[-1, 1]` is rejected by the
schema validation; and an `add_connection` whose pan is omitted stores the
schema default `0`. -/
theorem claim_c9_pan_bounds :
    (∀ (g g' : TopologyGraph) (ops : List ModifySessionSpec),
      panInvariant g = true → applyBatch g ops = .ok g' → panInvariant g' = true) ∧
    (∀ (g : TopologyGraph) (cid : ConnectionId) (f t : SessionFlowId)
      (fc tc : MixerChannels) (vol : Option ℚ) (p : ℚ), panInRange p = false →
        applyOp g (.add_connection cid f t fc tc vol (some p))
          = .error (.invalid_payload "pan out of range")) ∧
    (∀ (g : TopologyGraph) (smid : SessionMixerId) (iid : InputId) (input : MixerInput),
      panInRange input.pan = false →
        applyOp g (.add_mixer_input smid iid input)
          = .error (.invalid_payload "pan out of range")) ∧
    (∀ (g g' : TopologyGraph) (cid : ConnectionId) (f t : SessionFlowId)
      (fc tc : MixerChannels) (vol : Option ℚ),
      applyOp g (.add_connection cid f t fc tc vol none) = .ok g' →
        ∃ c, alookup g'.connections cid = some c ∧ c.pan = 0) := by
  refine ⟨fun g g' ops hg h => applyBatch_panInvariant hg h,
    fun g cid f t fc tc vol p hp => ?_, fun g smid iid input hp => ?_,
    fun g g' cid f t fc tc vol h => ?_⟩
  · simp only [applyOp]
    rw [if_pos (by simp [panOk, hp])]
  · simp only [applyOp]
    rw [if_pos (by simp [mixerInputValid, hp])]
  · simp only [applyOp] at h
    rw [if_neg (by simp [panOk])] at h
    split at h
    · simp at h
    · split at h
      · simp at h
      · split at h
        · simp at h
        · split at h
          · simp at h
          · split at h
            · simp at h
            · injection h with h
              subst h
              exact ⟨⟨f, t, fc, tc, vol.getD 0, 0⟩, by simp [alookup], rfl⟩

/-- C9 witness: the invariant survives a successful `add_connection` batch
on the A→B→C graph; a pan of 2 is rejected on both `add_connection` and
`add_mixer_input`; and an omitted pan is stored as 0. -/
theorem claim_c9_witness :
    panInvariant { c3Graph with connections :=
        ("c4", ⟨.track "C", .track "D", .mono 0, .mono 0, 0, 0⟩) :: c3Graph.connections }
      = true ∧
    applyOp emptyGraph
        (.add_connection "x" (.track "A") (.track "B") (.mono 0) (.mono 0) none (some 2))
      = .error (.invalid_payload "pan out of range") ∧
    applyOp emptyGraph
        (.add_mixer_input (.mixer "m") "i" ⟨.track "A", .mono 0, .mono 0, 0, 2⟩)
      = .error (.invalid_payload "pan out of range") ∧
    (∃ c, alookup ({ c3Graph with connections :=
        ("c4", ⟨.track "C", .track "D", .mono 0, .mono 0, 0, 0⟩) :: c3Graph.connections
          } : TopologyGraph).connections "c4" = some c ∧ c.pan = 0) :=
  ⟨claim_c9_pan_bounds.1 c3Graph _
      [.add_connection "c4" (.track "C") (.track "D") (.mono 0) (.mono 0) none none]
      (by decide) (by decide),
   claim_c9_pan_bounds.2.1 emptyGraph "x" (.track "A") (.track "B") (.mono 0) (.mono 0)
      none 2 (by decide),
   claim_c9_pan_bounds.2.2.1 emptyGraph (.mixer "m") "i" ⟨.track "A", .mono 0, .mono 0, 0, 2⟩
      (by decide),
   claim_c9_pan_bounds.2.2.2 c3Graph _ "c4" (.track "C") (.track "D") (.mono 0) (.mono 0)
      none (by decide)⟩

end AudioCloud
